import Mathlib

/-!
Verification of the watermark pod autoscaler controller.

The Go source is embedded shallowly:
* machine integers (`int32`, `int64`) become `Int` (claims are about exact
  values, not wrap-around behaviour);
* `float64` quantities (tolerance, limit factors, adjusted usage, durations)
  become `ℚ`, with `Int.floor` / `Int.ceil` standing for `math.Floor` /
  `math.Ceil`;
* wall-clock instants (`time.Time`) become `ℚ` seconds;
* fallible operations return `Except String`;
* external collaborators (metric clients, pod lister, scale client) are
  passed in as explicit data: a metric fetch is an `Except` value, the pod
  lister's answer is a `List Pod`, and the scale update's success is a
  `Bool` oracle.
-/

set_option autoImplicit false

namespace WPA

/-- Truncation of a rational toward zero, the behaviour of Go's
`int64(float64)` conversion used for the utilization milli-value. -/
def truncQ (q : ℚ) : Int :=
  if 0 ≤ q then ⌊q⌋ else ⌈q⌉

/-! ## Watermark evaluator (`getReplicaCount`, src/unnamed/part_001:177-207) -/

/-- Embedding of `getReplicaCount`.  `currentReplicas` is the base replica
count handed in by the caller, `adjustedUsage` the (possibly averaged) metric
usage in milli-units, `lowMark`/`highMark` the watermarks' milli-values.
Returns the proposed replica count and the utilization milli-value. -/
def getReplicaCount (currentReplicas : Int) (tolerance : ℚ) (adjustedUsage : ℚ)
    (lowMark highMark : Int) : Int × Int :=
  let utilization := truncQ adjustedUsage
  let adjustedHM : ℚ := (highMark : ℚ) + tolerance * (highMark : ℚ)
  let adjustedLM : ℚ := (lowMark : ℚ) - tolerance * (lowMark : ℚ)
  if adjustedUsage > adjustedHM then
    (⌈(currentReplicas : ℚ) * adjustedUsage / (highMark : ℚ)⌉, utilization)
  else if adjustedUsage < adjustedLM then
    (max ⌊(currentReplicas : ℚ) * adjustedUsage / (lowMark : ℚ)⌋ 1, utilization)
  else
    (currentReplicas, utilization)

/-! ## Pods and the readiness filter (src/unnamed/part_001:209-303) -/

/-- Pod lifecycle phase (`corev1.PodPhase`, the phases the source inspects). -/
inductive PodPhase where
  | running
  | pending
  | failed
  | succeeded
  | unknown
  deriving DecidableEq, Repr

/-- Condition status (`corev1.ConditionStatus`). -/
inductive ConditionStatus where
  | condTrue
  | condFalse
  | condUnknown
  deriving DecidableEq, Repr

/-- One entry of `PodStatus.Conditions`; times are seconds. -/
structure PodCondition where
  condType : String
  status : ConditionStatus
  lastTransitionTime : ℚ
  deriving DecidableEq, Repr

/-- The slice of `corev1.Pod` the controller reads. `startTime` is `none`
when `Status.StartTime` is nil. -/
structure Pod where
  name : String
  phase : PodPhase
  startTime : Option ℚ
  conditions : List PodCondition
  deriving DecidableEq, Repr

/-- Embedding of `getPodCondition`: the first condition of the given type,
or `none` (the source also returns the index, which no caller of interest
uses). -/
def getPodCondition (conditions : List PodCondition) (conditionType : String) :
    Option PodCondition :=
  conditions.find? (fun c => c.condType = conditionType)

/-- One pod's contribution to `getReadyPodsCount`'s
`toleratedAsReadyPodCount` (src/unnamed/part_001:221-234). -/
def podToleratedAsReady (readinessDelay : ℚ) (pod : Pod) : Bool :=
  match getPodCondition pod.conditions "Ready", pod.startTime with
  | none, _ => false
  | _, none => false
  | some condition, some startTime =>
    (pod.phase = PodPhase.running && condition.status = ConditionStatus.condTrue) ||
      (pod.phase = PodPhase.pending &&
        decide (condition.lastTransitionTime - startTime < readinessDelay))

/-- Embedding of `getReadyPodsCount` (src/unnamed/part_001:209-239); the
pod lister's answer is the `podList` argument. -/
def getReadyPodsCount (podList : List Pod) (readinessDelay : ℚ) :
    Except String Int :=
  if podList.isEmpty then
    Except.error "no pods returned by selector while calculating replica count"
  else
    let toleratedAsReadyPodCount := podList.countP (podToleratedAsReady readinessDelay)
    if toleratedAsReadyPodCount = 0 then
      Except.error "among the pods none is ready, skipping recommendation"
    else
      Except.ok (toleratedAsReadyPodCount : Int)

/-- Whether `groupPods` ignores a pod in the CPU branch
(src/unnamed/part_001:264-278). -/
def cpuIgnorePod (delayOfInitialReadinessStatus : ℚ) (pod : Pod) : Bool :=
  match getPodCondition pod.conditions "Ready", pod.startTime with
  | none, _ => true
  | _, none => true
  | some condition, some startTime =>
    condition.status = ConditionStatus.condFalse &&
      decide (startTime + delayOfInitialReadinessStatus > condition.lastTransitionTime)

/-- Embedding of `groupPods` (src/unnamed/part_001:241-283). The per-pod
metric map is an association list keyed by pod name. Returns the names of
ready pods and of ignored pods (the `missing` set is only logged by the
source, so only its effect — falling out of both sets — is kept). -/
def groupPods (podList : List Pod) (metrics : List (String × Int))
    (resourceName : String) (delayOfInitialReadinessStatus : ℚ) :
    List String × List String :=
  match podList with
  | [] => ([], [])
  | pod :: rest =>
    let prev := groupPods rest metrics resourceName delayOfInitialReadinessStatus
    if pod.phase = PodPhase.failed then (prev.1, pod.name :: prev.2)
    else if pod.phase = PodPhase.pending then (prev.1, pod.name :: prev.2)
    else if (metrics.lookup pod.name).isNone then (prev.1, prev.2)
    else if resourceName = "cpu" && cpuIgnorePod delayOfInitialReadinessStatus pod then
      (prev.1, pod.name :: prev.2)
    else (pod.name :: prev.1, prev.2)

/-- Embedding of `removeMetricsForPods` (src/unnamed/part_001:285-289):
drop the metric entries of every pod in `pods`. -/
def removeMetricsForPods (metrics : List (String × Int)) (pods : List String) :
    List (String × Int) :=
  metrics.filter (fun kv => decide (kv.1 ∉ pods))

/-- Modelled from the spec's words (section 4.3): the watermark decision rule
`u > H(1+t) ↦ ⌈N·u/H⌉`, `u < L(1−t) ↦ max(1, ⌊N·u/L⌋)`, otherwise `N`.
Kept separate from `getReplicaCount` so the refinement is a real theorem. -/
def watermarkSpecProposal (N : Int) (t u : ℚ) (L H : Int) : Int :=
  if u > (H : ℚ) * (1 + t) then ⌈(N : ℚ) * u / (H : ℚ)⌉
  else if u < (L : ℚ) * (1 - t) then max 1 ⌊(N : ℚ) * u / (L : ℚ)⌋
  else N

/-! ## Policies, statuses and the replica calculator
(src/unnamed/part_001:27-175) -/

/-- The slice of the `WatermarkPodAutoscaler` spec the decision engine
reads. Times and percentages keep their source units (seconds, percent). -/
structure WPASpec where
  minReplicas : Option Int
  maxReplicas : Int
  tolerance : ℚ
  algorithm : String
  dryRun : Bool
  scaleUpLimitFactor : ℚ
  scaleDownLimitFactor : ℚ
  upscaleForbiddenWindowSeconds : ℚ
  downscaleForbiddenWindowSeconds : ℚ
  readinessDelaySeconds : ℚ
  deriving DecidableEq, Repr

/-- The status fields the reconciliation reads and writes (conditions and
per-metric statuses are elided: no claim mentions them). -/
structure WPAStatus where
  currentReplicas : Int
  desiredReplicas : Int
  lastScaleTime : Option ℚ
  deriving DecidableEq, Repr

/-- The scale subresource: what the controller writes (`specReplicas`) and
what the orchestrator observed (`statusReplicas`). -/
structure ScaleObj where
  specReplicas : Int
  statusReplicas : Int
  deriving DecidableEq, Repr

/-- Embedding of `ReplicaCalculation` (src/unnamed/part_001:28-32). -/
structure ReplicaCalculation where
  replicaCount : Int
  utilization : Int
  timestamp : ℚ
  deriving DecidableEq, Repr

/-- Divisor of the external path (src/unnamed/part_001:67-70): the ready-pod
count under the `average` algorithm, `1` otherwise. -/
def externalAveraged (wpa : WPASpec) (currentReadyReplicas : Int) : ℚ :=
  if wpa.algorithm = "average" then (currentReadyReplicas : ℚ) else 1

/-- Adjusted usage of the external path (src/unnamed/part_001:98-104): the
sample sum divided by `externalAveraged`. -/
def externalAdjustedUsage (wpa : WPASpec) (currentReadyReplicas : Int)
    (metrics : List Int) : ℚ :=
  ((metrics.foldl (· + ·) 0 : Int) : ℚ) / externalAveraged wpa currentReadyReplicas

/-- Embedding of `GetExternalMetricReplicas` (src/unnamed/part_001:58-107).
The metrics client's answer is `fetch` (list of sample milli-values plus a
timestamp, or the fetch error); the pod lister's answer is `podList`. -/
def GetExternalMetricReplicas (wpa : WPASpec) (podList : List Pod)
    (fetch : Except String (List Int × ℚ)) (lowMark highMark : Int) :
    Except String ReplicaCalculation :=
  match getReadyPodsCount podList wpa.readinessDelaySeconds with
  | Except.error e =>
    Except.error ("unable to get the number of ready pods across all namespaces: " ++ e)
  | Except.ok currentReadyReplicas =>
    match fetch with
    | Except.error e => Except.error ("unable to get external metric: " ++ e)
    | Except.ok (metrics, timestamp) =>
      let adjustedUsage := externalAdjustedUsage wpa currentReadyReplicas metrics
      let rc := getReplicaCount currentReadyReplicas wpa.tolerance adjustedUsage lowMark highMark
      Except.ok ⟨rc.1, rc.2, timestamp⟩

/-- Ready-pod count of the resource path, after grouping
(src/unnamed/part_001:154-155). -/
def resourceReadyCount (podList : List Pod) (metrics : List (String × Int))
    (resourceName : String) (delay : ℚ) : Int :=
  ((groupPods podList metrics resourceName delay).1.length : Int)

/-- Metric map left after removing ignored pods' entries
(src/unnamed/part_001:157). -/
def resourceMetricsAfterRemoval (podList : List Pod) (metrics : List (String × Int))
    (resourceName : String) (delay : ℚ) : List (String × Int) :=
  removeMetricsForPods metrics (groupPods podList metrics resourceName delay).2

/-- Divisor used for the `average` algorithm on the resource path
(src/unnamed/part_001:162-165); `0` exactly when no pod is ready. -/
def resourceAveraged (wpa : WPASpec) (podList : List Pod)
    (metrics : List (String × Int)) (resourceName : String) : ℚ :=
  if wpa.algorithm = "average" then
    (resourceReadyCount podList metrics resourceName wpa.readinessDelaySeconds : ℚ)
  else 1

/-- Adjusted usage of the resource path (src/unnamed/part_001:167-171): the
sample sum over the surviving entries divided by `resourceAveraged`.
Division by zero is the rational-number convention `x / 0 = 0`; the Go
float division yields an infinity there — in both cases no error is
raised. -/
def resourceAdjustedUsage (wpa : WPASpec) (podList : List Pod)
    (metrics : List (String × Int)) (resourceName : String) : ℚ :=
  let surviving := resourceMetricsAfterRemoval podList metrics resourceName wpa.readinessDelaySeconds
  let sum : Int := (surviving.map Prod.snd).foldl (· + ·) 0
  (sum : ℚ) / resourceAveraged wpa podList metrics resourceName

/-- Embedding of `GetResourceReplicas` (src/unnamed/part_001:111-175).
`statusReplicas` is `target.Status.Replicas`; the metric client's answer is
`fetch`, the pod lister's is `podList`. -/
def GetResourceReplicas (wpa : WPASpec) (statusReplicas : Int)
    (fetch : Except String (List (String × Int) × ℚ)) (podList : List Pod)
    (resourceName : String) (lowMark highMark : Int) :
    Except String ReplicaCalculation :=
  match fetch with
  | Except.error e => Except.error ("unable to get resource metric: " ++ e)
  | Except.ok (metrics, timestamp) =>
    if podList.isEmpty then
      Except.error "no pods returned by selector while calculating replica count"
    else if (resourceMetricsAfterRemoval podList metrics resourceName wpa.readinessDelaySeconds).isEmpty then
      Except.error "did not receive metrics for any ready pods"
    else
      let adjustedUsage := resourceAdjustedUsage wpa podList metrics resourceName
      let rc := getReplicaCount statusReplicas wpa.tolerance adjustedUsage lowMark highMark
      Except.ok ⟨rc.1, rc.2, timestamp⟩

/-! ## Cooldown gate (`shouldScale` / `canScale`,
src/pkg/controller/watermarkpodautoscaler/watermarkpodautoscaler_controller.go:411-459) -/

/-- Embedding of `canScale` (controller.go:452-459). -/
def canScale (backoffUp backoffDown : Bool) (currentReplicas desiredReplicas : Int) : Bool :=
  if desiredReplicas = currentReplicas then false
  else
    (!backoffUp && decide (desiredReplicas > currentReplicas)) ||
      (!backoffDown && decide (desiredReplicas < currentReplicas))

/-- Embedding of `shouldScale` (controller.go:411-449). `lastScaleTime` is
`wpa.Status.LastScaleTime`, `timestamp` the proposal timestamp. -/
def shouldScale (wpa : WPASpec) (lastScaleTime : Option ℚ)
    (currentReplicas desiredReplicas : Int) (timestamp : ℚ) : Bool :=
  match lastScaleTime with
  | none => true
  | some t0 =>
    let downscaleCountdown := t0 + wpa.downscaleForbiddenWindowSeconds - timestamp
    let backoffDown := decide (downscaleCountdown > 0)
    let upscaleCountdown := t0 + wpa.upscaleForbiddenWindowSeconds - timestamp
    let backoffUp := decide (upscaleCountdown > 0)
    canScale backoffUp backoffDown currentReplicas desiredReplicas

/-! ## Normalizer (controller.go:666-762) -/

/-- Embedding of `calculateScaleUpLimit` (controller.go:754-757). -/
def calculateScaleUpLimit (wpa : WPASpec) (currentReplicas : Int) : Int :=
  currentReplicas + max 1 ⌊wpa.scaleUpLimitFactor / 100 * (currentReplicas : ℚ)⌋

/-- Embedding of `calculateScaleDownLimit` (controller.go:760-762). -/
def calculateScaleDownLimit (wpa : WPASpec) (currentReplicas : Int) : Int :=
  currentReplicas - max 1 ⌊wpa.scaleDownLimitFactor / 100 * (currentReplicas : ℚ)⌋

/-- Embedding of `convertDesiredReplicasWithRules` (controller.go:688-751),
keeping only the replica count (the condition/reason strings are dropped). -/
def convertDesiredReplicasWithRules (wpa : WPASpec)
    (currentReplicas desiredReplicas wpaMinReplicas wpaMaxReplicas : Int) : Int :=
  let scaleDownLimit := calculateScaleDownLimit wpa currentReplicas
  let minimumAllowedReplicas : Int :=
    if wpaMinReplicas = 0 then 1
    else if desiredReplicas < scaleDownLimit then max scaleDownLimit wpaMinReplicas
    else wpaMinReplicas
  if desiredReplicas < minimumAllowedReplicas then minimumAllowedReplicas
  else
    let scaleUpLimit := calculateScaleUpLimit wpa currentReplicas
    let maximumAllowedReplicas : Int :=
      if desiredReplicas > scaleUpLimit then min scaleUpLimit wpaMaxReplicas
      else wpaMaxReplicas
    if desiredReplicas > maximumAllowedReplicas then maximumAllowedReplicas
    else desiredReplicas

/-- Embedding of `normalizeDesiredReplicas` (controller.go:668-685). -/
def normalizeDesiredReplicas (wpa : WPASpec)
    (currentReplicas prenormalizedDesiredReplicas : Int) : Int :=
  let minReplicas := wpa.minReplicas.getD 0
  convertDesiredReplicasWithRules wpa currentReplicas prenormalizedDesiredReplicas
    minReplicas wpa.maxReplicas

/-! ## Metric aggregation (`computeReplicasForMetrics`, controller.go:496-623) -/

/-- One metric spec together with the environment it is evaluated in: the
metric client's answer for that spec and (external path) the pod lister's
answer. Watermarks are `Option` because the source rejects specs missing
either one. -/
inductive MetricSpecModel where
  | external (metricName : String) (lowWatermark highWatermark : Option Int)
      (fetch : Except String (List Int × ℚ)) (podList : List Pod)
  | resource (resourceName : String) (lowWatermark highWatermark : Option Int)
      (fetch : Except String (List (String × Int) × ℚ)) (podList : List Pod)

/-- Evaluation of one metric spec inside the loop of
`computeReplicasForMetrics` (controller.go:523-612): watermark presence
check, then the matching calculator. Returns the per-spec
`(proposal, metricName, timestamp)`. -/
def evalMetricSpec (wpa : WPASpec) (statusReplicas : Int) :
    MetricSpecModel → Except String (Int × String × ℚ)
  | MetricSpecModel.external metricName low? high? fetch podList =>
    match high?, low? with
    | some highMark, some lowMark =>
      match GetExternalMetricReplicas wpa podList fetch lowMark highMark with
      | Except.error e => Except.error ("failed to get external metric: " ++ e)
      | Except.ok rc => Except.ok (rc.replicaCount, metricName, rc.timestamp)
    | _, _ =>
      Except.error "invalid external metric source: the high watermark and the low watermark are required"
  | MetricSpecModel.resource resourceName low? high? fetch podList =>
    match high?, low? with
    | some highMark, some lowMark =>
      match GetResourceReplicas wpa statusReplicas fetch podList resourceName lowMark highMark with
      | Except.error e => Except.error ("failed to get resource metric: " ++ e)
      | Except.ok rc => Except.ok (rc.replicaCount, resourceName, rc.timestamp)
    | _, _ =>
      Except.error "invalid resource metric source: the high watermark and the low watermark are required"

/-- The aggregation loop of `computeReplicasForMetrics`
(controller.go:514-619): keep the proposal whenever the running value is
zero or the new proposal is strictly larger. -/
def computeLoop (wpa : WPASpec) (statusReplicas : Int)
    (acc : Int × String × ℚ) : List MetricSpecModel → Except String (Int × String × ℚ)
  | [] => Except.ok acc
  | spec :: rest =>
    match evalMetricSpec wpa statusReplicas spec with
    | Except.error e => Except.error e
    | Except.ok (proposal, name, ts) =>
      if acc.1 = 0 || proposal > acc.1 then
        computeLoop wpa statusReplicas (proposal, name, ts) rest
      else
        computeLoop wpa statusReplicas acc rest

/-- Embedding of `computeReplicasForMetrics` (controller.go:496-623); the
accumulator starts from zero replicas, empty metric name, zero timestamp. -/
def computeReplicasForMetrics (wpa : WPASpec) (statusReplicas : Int)
    (specs : List MetricSpecModel) : Except String (Int × String × ℚ) :=
  computeLoop wpa statusReplicas (0, "", 0) specs

/-! ## Reconciliation driver (`reconcileWPA`, controller.go:254-384) -/

/-- Embedding of `setStatus` (controller.go:481-494) restricted to the
modelled fields: `LastScaleTime` moves to `now` exactly when `rescale`. -/
def setStatus (st : WPAStatus) (currentReplicas desiredReplicas : Int)
    (rescale : Bool) (now : ℚ) : WPAStatus :=
  { currentReplicas := currentReplicas
    desiredReplicas := desiredReplicas
    lastScaleTime := if rescale then some now else st.lastScaleTime }

/-- Outcome of one reconciliation: the value written to the scale
subresource when the update succeeded, and the resulting status. -/
structure ReconcileResult where
  written : Option Int
  status : WPAStatus
  deriving DecidableEq, Repr

/-- The commit point of `reconcileWPA` once `rescale` is true
(controller.go:351-379): dry-run records without writing; otherwise the
scale update is attempted and `writeSucceeds` tells whether the control
plane accepted it. On failure the status keeps the previous desired
replicas and `rescale = false` is recorded (controller.go:361-371 via
`setCurrentReplicasInStatus`). -/
def finishRescale (wpa : WPASpec) (st0 : WPAStatus)
    (currentReplicas desiredReplicas : Int) (now : ℚ) (writeSucceeds : Bool) :
    ReconcileResult :=
  if wpa.dryRun then
    { written := none, status := setStatus st0 currentReplicas desiredReplicas true now }
  else if writeSucceeds then
    { written := some desiredReplicas
      status := setStatus st0 currentReplicas desiredReplicas true now }
  else
    { written := none
      status := setStatus st0 currentReplicas st0.desiredReplicas false now }

/-- Embedding of `reconcileWPA`'s decision core (controller.go:281-384),
from the point where the scale was fetched. `st0` is the status snapshot,
`now` the reconciliation wall clock, `specs` the policy's metric specs with
their environments, `writeSucceeds` the scale client's answer. -/
def reconcileWPA (wpa : WPASpec) (st0 : WPAStatus) (scale : ScaleObj)
    (specs : List MetricSpecModel) (now : ℚ) (writeSucceeds : Bool) :
    ReconcileResult :=
  let currentReplicas := scale.statusReplicas
  if scale.specReplicas = 0 then
    -- autoscaling disabled: rescale = false, desired falls back to current
    { written := none, status := setStatus st0 currentReplicas currentReplicas false now }
  else if currentReplicas > wpa.maxReplicas then
    finishRescale wpa st0 currentReplicas wpa.maxReplicas now writeSucceeds
  else if (wpa.minReplicas.map (fun m => decide (currentReplicas < m))).getD false then
    finishRescale wpa st0 currentReplicas (wpa.minReplicas.getD 0) now writeSucceeds
  else if currentReplicas = 0 then
    finishRescale wpa st0 currentReplicas 1 now writeSucceeds
  else
    match computeReplicasForMetrics wpa currentReplicas specs with
    | Except.error _ =>
      -- controller.go:318-329: record current replicas, keep desired, no write
      { written := none
        status := setStatus st0 currentReplicas st0.desiredReplicas false now }
    | Except.ok (proposedReplicas, _metricName, metricTimestamp) =>
      let desired0 : Int := if proposedReplicas > 0 then proposedReplicas else 0
      let tstamp : ℚ := if proposedReplicas > 0 then metricTimestamp else now
      let desiredReplicas := normalizeDesiredReplicas wpa currentReplicas desired0
      if shouldScale wpa st0.lastScaleTime currentReplicas desiredReplicas tstamp then
        finishRescale wpa st0 currentReplicas desiredReplicas now writeSucceeds
      else
        { written := none
          status := setStatus st0 currentReplicas currentReplicas false now }

/-! ## Scale fetch (`getScaleForResourceMappings`, controller.go:391-409)
and the nil-scale guard of `reconcileWPA` (controller.go:276-281) -/

/-- One REST mapping's attempt: the group-version string and the scale
client's answer for it. -/
structure MappingAttempt where
  groupVersion : String
  result : Except String ScaleObj

/-- Loop body of `getScaleForResourceMappings`: try each mapping until one
returns a scale, collecting error messages; append `"scale not found"` when
none did. -/
def scaleMappingsLoop (errs : List String) :
    List MappingAttempt → Option ScaleObj × List String
  | [] => (none, errs ++ ["scale not found"])
  | m :: rest =>
    match m.result with
    | Except.ok s => (some s, errs)
    | Except.error e =>
      scaleMappingsLoop
        (errs ++ ["could not get scale for the GV " ++ m.groupVersion ++ ", error: " ++ e]) rest

/-- Embedding of `getScaleForResourceMappings` (controller.go:391-409). -/
def getScaleForResourceMappings (mappings : List MappingAttempt) :
    Option ScaleObj × List String :=
  scaleMappingsLoop [] mappings

/-- Aggregate error message (`utilerrors.NewAggregate(errs).Error()`): the
individual messages joined with separators; bracketing punctuation is
irrelevant to the substring test the caller performs. -/
def aggregateErrorMessage : List String → String
  | [] => ""
  | [e] => e
  | e :: rest => e ++ ", " ++ aggregateErrorMessage rest

/-- What `reconcileWPA` does right after the scale fetch
(controller.go:276-281). -/
inductive ScaleFetchOutcome where
  | earlyReturn (msg : String)
  | nilDereference
  | proceed (s : ScaleObj)
  deriving DecidableEq, Repr

/-- The guard at controller.go:277: return the error when the scale is nil
and the aggregated message contains `"not found"`; otherwise fall through
to `currentScale.Status.Replicas`, which dereferences a nil pointer when
the scale is absent. -/
def reconcileScaleGate (mappings : List MappingAttempt) : ScaleFetchOutcome :=
  let fetched := getScaleForResourceMappings mappings
  match fetched.1 with
  | some s => ScaleFetchOutcome.proceed s
  | none =>
    if ("not found".toList.IsInfix (aggregateErrorMessage fetched.2).toList : Prop) then
      ScaleFetchOutcome.earlyReturn (aggregateErrorMessage fetched.2)
    else ScaleFetchOutcome.nilDereference

/-- Boolean view of `ScaleFetchOutcome.nilDereference`. -/
def isNilDereference : ScaleFetchOutcome → Bool
  | ScaleFetchOutcome.nilDereference => true
  | _ => false

/-- Boolean success view of an `Except`-valued computation. -/
def exceptOk {ε α : Type} : Except ε α → Bool
  | Except.ok _ => true
  | Except.error _ => false

/-! ## Concrete fixtures used by witnesses and counterexamples -/

/-- A policy with unexciting values; witnesses adjust fields as needed. -/
def wpaBase : WPASpec :=
  { minReplicas := some 1
    maxReplicas := 10
    tolerance := 0
    algorithm := "absolute"
    dryRun := false
    scaleUpLimitFactor := 100
    scaleDownLimitFactor := 100
    upscaleForbiddenWindowSeconds := 0
    downscaleForbiddenWindowSeconds := 0
    readinessDelaySeconds := 0 }

/-- A running pod whose `Ready` condition is true. -/
def readyPod (name : String) : Pod :=
  { name := name
    phase := PodPhase.running
    startTime := some 0
    conditions := [{ condType := "Ready", status := ConditionStatus.condTrue, lastTransitionTime := 0 }] }

/-- A pending pod (ignored by the resource-path readiness filter). -/
def pendingPod (name : String) : Pod :=
  { name := name
    phase := PodPhase.pending
    startTime := some 0
    conditions := [{ condType := "Ready", status := ConditionStatus.condFalse, lastTransitionTime := 0 }] }

/-- Policy with `MinReplicas = 0` and 1% rate-limit factors, exercising the
normalizer's zero-minimum branch. -/
def wpaC3 : WPASpec :=
  { wpaBase with
      minReplicas := some 0
      maxReplicas := 100
      scaleUpLimitFactor := 1
      scaleDownLimitFactor := 1
      algorithm := "average" }

/-- Resource metric spec whose usage (1000 milli) sits far below the low
watermark (2000 milli), driving a large downscale proposal. -/
def specC3 : MetricSpecModel :=
  MetricSpecModel.resource "memory" (some 2000) (some 4000)
    (Except.ok ([("p1", 1000)], 5)) [readyPod "p1"]

/-- Policy using the `average` algorithm, for the external dead-band
scenario. -/
def wpaC4 : WPASpec := { wpaBase with algorithm := "average" }

/-- External metric spec with four ready pods and sample sum 6000, so the
averaged usage 1500 sits inside the `[1000, 2000]` watermark band while the
evaluation base (the ready-pod count, 4) differs from the observed replica
count 5. -/
def specC4 : MetricSpecModel :=
  MetricSpecModel.external "m" (some 1000) (some 2000) (Except.ok ([6000], 100))
    [readyPod "p1", readyPod "p2", readyPod "p3", readyPod "p4"]

/-- Policy in dry-run mode. -/
def wpaC6 : WPASpec := { wpaBase with dryRun := true }

/-- External spec with negative watermarks and sample sum 0: evaluates
successfully to proposal 0. -/
def specC7a : MetricSpecModel :=
  MetricSpecModel.external "a" (some (-3000)) (some (-2000)) (Except.ok ([], 11)) [readyPod "p1"]

/-- External spec with negative watermarks and sample sum 3000: evaluates
successfully to proposal `⌈3000 / (−2000)⌉ = −1`. -/
def specC7b : MetricSpecModel :=
  MetricSpecModel.external "b" (some (-3000)) (some (-2000)) (Except.ok ([3000], 12)) [readyPod "p1"]

/-- External spec proposing 2 replicas (usage 3000 against high watermark
2000 with one ready pod). -/
def specC7w : MetricSpecModel :=
  MetricSpecModel.external "w" (some 1000) (some 2000) (Except.ok ([3000], 9)) [readyPod "p1"]

/-! ## Theorems: one theorem per claim (C1-C10), with counterexamples and
witnesses next to the claims that need them. -/

/-- C1: the watermark evaluation in `getReplicaCount` agrees with the spec's
three-case rule: above `H·(1+t)` it proposes `⌈N·u/H⌉`, below `L·(1−t)` it
proposes `max(1, ⌊N·u/L⌋)`, and inside the (inclusive) dead band it returns
the incoming replica count unchanged — for every replica base, tolerance,
usage and watermark pair. -/
theorem getReplicaCount_refines_spec (N : Int) (t u : ℚ) (L H : Int) :
    (getReplicaCount N t u L H).1 = watermarkSpecProposal N t u L H := by
  have hH : (H : ℚ) + t * H = (H : ℚ) * (1 + t) := by ring
  have hL : (L : ℚ) - t * L = (L : ℚ) * (1 - t) := by ring
  simp only [getReplicaCount, watermarkSpecProposal, hH, hL]
  split_ifs <;> simp [max_comm]

/-- C5 counterexample: with `LastScaleTime` absent the gate allows
enactment even when the proposal equals the current replica count, so the
claim's "D = N never allows enactment" is false on the code: `shouldScale`
returns `true` before ever comparing `D` with `N`. -/
theorem shouldScale_same_replicas_allowed_when_never_scaled :
    shouldScale ⟨some 1, 10, 0, "absolute", false, 100, 100, 60, 60, 0⟩ none 5 5 0 = true := rfl

/-- C5 amended: when `LastScaleTime` is present, enactment is allowed iff
`D > N` and `T0 + Wup ≤ t`, or `D < N` and `T0 + Wdown ≤ t` (in particular
`D = N` never allows it); when `LastScaleTime` is absent enactment is
always allowed, including when `D = N`. -/
theorem shouldScale_gate_characterization (wpa : WPASpec) (t0 : ℚ) (N D : Int) (ts : ℚ) :
    shouldScale wpa (some t0) N D ts =
      ((decide (N < D) && decide (t0 + wpa.upscaleForbiddenWindowSeconds ≤ ts)) ||
        (decide (D < N) && decide (t0 + wpa.downscaleForbiddenWindowSeconds ≤ ts))) ∧
    shouldScale wpa none N D ts = true := by
  refine ⟨?_, rfl⟩
  have hs : shouldScale wpa (some t0) N D ts =
      canScale (decide (t0 + wpa.upscaleForbiddenWindowSeconds - ts > 0))
        (decide (t0 + wpa.downscaleForbiddenWindowSeconds - ts > 0)) N D := rfl
  rw [hs, canScale]
  by_cases hDN : D = N
  · rw [if_pos hDN]
    subst hDN
    simp
  · rw [if_neg hDN]
    have hup : (!decide (t0 + wpa.upscaleForbiddenWindowSeconds - ts > 0)) =
        decide (t0 + wpa.upscaleForbiddenWindowSeconds ≤ ts) := by
      rw [← decide_not, decide_eq_decide, not_lt, sub_nonpos]
    have hdown : (!decide (t0 + wpa.downscaleForbiddenWindowSeconds - ts > 0)) =
        decide (t0 + wpa.downscaleForbiddenWindowSeconds ≤ ts) := by
      rw [← decide_not, decide_eq_decide, not_lt, sub_nonpos]
    rw [hup, hdown]
    simp [Bool.and_comm]

/-! ### Normalizer bounds -/

/-- Scale-down limit is strictly below the current count. -/
theorem calculateScaleDownLimit_le (wpa : WPASpec) (cur : Int) :
    calculateScaleDownLimit wpa cur ≤ cur - 1 := by
  have h := le_max_left (1 : Int) ⌊wpa.scaleDownLimitFactor / 100 * (cur : ℚ)⌋
  unfold calculateScaleDownLimit
  omega

/-- Scale-up limit is strictly above the current count. -/
theorem le_calculateScaleUpLimit (wpa : WPASpec) (cur : Int) :
    cur + 1 ≤ calculateScaleUpLimit wpa cur := by
  have h := le_max_left (1 : Int) ⌊wpa.scaleUpLimitFactor / 100 * (cur : ℚ)⌋
  unfold calculateScaleUpLimit
  omega

/-- The normalizer keeps any proposal inside `[max(m,1), M]` whenever the
current count itself respects the bounds. -/
theorem convertDesiredReplicasWithRules_bounds (wpa : WPASpec) (cur des m M : Int)
    (hm0 : 0 ≤ m) (hmM : m ≤ M) (hM : 1 ≤ M) (hcur1 : 1 ≤ cur) (hcurM : cur ≤ M)
    (hmcur : m ≤ cur) :
    max m 1 ≤ convertDesiredReplicasWithRules wpa cur des m M ∧
      convertDesiredReplicasWithRules wpa cur des m M ≤ M := by
  have hsdl := calculateScaleDownLimit_le wpa cur
  have hsup := le_calculateScaleUpLimit wpa cur
  simp only [convertDesiredReplicasWithRules]
  split_ifs <;> omega

/-- The commit point only ever writes the desired count it was handed. -/
theorem finishRescale_written (wpa : WPASpec) (st0 : WPAStatus)
    (cur des : Int) (now : ℚ) (ws : Bool) (v : Int)
    (h : (finishRescale wpa st0 cur des now ws).written = some v) : v = des := by
  unfold finishRescale at h
  split_ifs at h
  all_goals simp_all

/-- C2: every replica count the reconciliation writes to the scale
subresource lies between the effective minimum (`MinReplicas`, taken as 1
when zero or unset) and `MaxReplicas`, for any policy whose bounds are
well-formed (`1 ≤ MaxReplicas`, `0 ≤ MinReplicas ≤ MaxReplicas`) and a
non-negative observed replica count. -/
theorem reconcile_written_within_min_max (wpa : WPASpec) (st0 : WPAStatus)
    (scale : ScaleObj) (specs : List MetricSpecModel) (now : ℚ) (ws : Bool) (v : Int)
    (hN : 0 ≤ scale.statusReplicas)
    (hM : 1 ≤ wpa.maxReplicas)
    (hmin : ∀ m, wpa.minReplicas = some m → 0 ≤ m ∧ m ≤ wpa.maxReplicas)
    (hw : (reconcileWPA wpa st0 scale specs now ws).written = some v) :
    max (wpa.minReplicas.getD 0) 1 ≤ v ∧ v ≤ wpa.maxReplicas := by
  unfold reconcileWPA at hw
  by_cases h1 : scale.specReplicas = 0
  · rw [if_pos h1] at hw
    simp at hw
  rw [if_neg h1] at hw
  by_cases h2 : wpa.maxReplicas < scale.statusReplicas
  · -- current above MaxReplicas: the written value is MaxReplicas
    rw [if_pos h2] at hw
    have hv := finishRescale_written _ _ _ _ _ _ _ hw
    subst hv
    cases hmr : wpa.minReplicas with
    | none => simp [hmr]; omega
    | some m =>
      have := hmin m hmr
      simp [hmr]
      omega
  rw [if_neg h2] at hw
  by_cases h3 : (wpa.minReplicas.map (fun m => decide (scale.statusReplicas < m))).getD false = true
  · -- current below MinReplicas: the written value is MinReplicas
    rw [if_pos h3] at hw
    cases hmr : wpa.minReplicas with
    | none => rw [hmr] at h3; simp at h3
    | some m =>
      rw [hmr] at h3 hw
      simp only [Option.map_some', Option.getD_some, decide_eq_true_eq] at h3 hw
      have hv := finishRescale_written _ _ _ _ _ _ _ hw
      have := hmin m hmr
      simp [hmr]
      omega
  rw [if_neg h3] at hw
  by_cases h4 : scale.statusReplicas = 0
  · -- current is zero (and MinReplicas absent or nonpositive): the code writes 1
    rw [if_pos h4] at hw
    have hv := finishRescale_written _ _ _ _ _ _ _ hw
    subst hv
    cases hmr : wpa.minReplicas with
    | none => simp [hmr]; omega
    | some m =>
      rw [hmr] at h3
      simp only [Option.map_some', Option.getD_some, decide_eq_true_eq] at h3
      have := hmin m hmr
      simp [hmr]
      omega
  rw [if_neg h4] at hw
  -- metric path: the written value went through the normalizer
  have hmle : wpa.minReplicas.getD 0 ≤ scale.statusReplicas := by
    cases hmr : wpa.minReplicas with
    | none => simpa [hmr] using hN
    | some m =>
      rw [hmr] at h3
      simp only [Option.map_some', Option.getD_some, decide_eq_true_eq] at h3
      simp [hmr]
      omega
  have hm0 : 0 ≤ wpa.minReplicas.getD 0 := by
    cases hmr : wpa.minReplicas with
    | none => simp [hmr]
    | some m => simpa [hmr] using (hmin m hmr).1
  have hmM : wpa.minReplicas.getD 0 ≤ wpa.maxReplicas := by
    cases hmr : wpa.minReplicas with
    | none => simp [hmr]; omega
    | some m => simpa [hmr] using (hmin m hmr).2
  rcases hc : computeReplicasForMetrics wpa scale.statusReplicas specs with e | ⟨p, nm, ts⟩
  · rw [hc] at hw
    simp at hw
  rw [hc] at hw
  have hw' : (if shouldScale wpa st0.lastScaleTime scale.statusReplicas
        (normalizeDesiredReplicas wpa scale.statusReplicas (if 0 < p then p else 0))
        (if 0 < p then ts else now) = true then
      finishRescale wpa st0 scale.statusReplicas
        (normalizeDesiredReplicas wpa scale.statusReplicas (if 0 < p then p else 0)) now ws
    else
      { written := none,
        status := setStatus st0 scale.statusReplicas scale.statusReplicas false now }).written =
      some v := hw
  clear hw
  split_ifs at hw' <;>
    first
      | exact Option.noConfusion hw'
      | · have hv := finishRescale_written _ _ _ _ _ _ _ hw'
          subst hv
          exact convertDesiredReplicasWithRules_bounds wpa scale.statusReplicas _
            (wpa.minReplicas.getD 0) wpa.maxReplicas hm0 hmM hM (by omega) (by omega) hmle

/-- C2 witness: a policy with `MinReplicas = 1`, `MaxReplicas = 10` and an
observed count of 20 writes exactly `MaxReplicas = 10`, inside the bounds. -/
theorem reconcile_written_within_min_max_witness :
    max ((wpaBase.minReplicas).getD 0) 1 ≤ 10 ∧ (10 : Int) ≤ wpaBase.maxReplicas := by
  exact reconcile_written_within_min_max wpaBase ⟨20, 20, none⟩ ⟨20, 20⟩ [] 0 true 10
    (by decide) (by decide)
    (by intro m hm; cases hm; exact ⟨by decide, by decide⟩) (by decide)

/-- When the driver reaches the metric path and a write happens, the
written value is the normalized proposal of `computeReplicasForMetrics`. -/
theorem reconcileWPA_metric_written (wpa : WPASpec) (st0 : WPAStatus) (scale : ScaleObj)
    (specs : List MetricSpecModel) (now : ℚ) (ws : Bool) (v : Int)
    (h1 : ¬scale.specReplicas = 0) (h2 : ¬wpa.maxReplicas < scale.statusReplicas)
    (h3 : ¬(wpa.minReplicas.map (fun m => decide (scale.statusReplicas < m))).getD false = true)
    (h4 : ¬scale.statusReplicas = 0)
    (hw : (reconcileWPA wpa st0 scale specs now ws).written = some v) :
    ∃ p nm ts, computeReplicasForMetrics wpa scale.statusReplicas specs = Except.ok (p, nm, ts) ∧
      v = normalizeDesiredReplicas wpa scale.statusReplicas (if 0 < p then p else 0) := by
  unfold reconcileWPA at hw
  rw [if_neg h1, if_neg h2, if_neg h3, if_neg h4] at hw
  rcases hc : computeReplicasForMetrics wpa scale.statusReplicas specs with e | ⟨p, nm, ts⟩
  · rw [hc] at hw
    simp at hw
  rw [hc] at hw
  refine ⟨p, nm, ts, rfl, ?_⟩
  have hw' : (if shouldScale wpa st0.lastScaleTime scale.statusReplicas
        (normalizeDesiredReplicas wpa scale.statusReplicas (if 0 < p then p else 0))
        (if 0 < p then ts else now) = true then
      finishRescale wpa st0 scale.statusReplicas
        (normalizeDesiredReplicas wpa scale.statusReplicas (if 0 < p then p else 0)) now ws
    else
      { written := none,
        status := setStatus st0 scale.statusReplicas scale.statusReplicas false now }).written =
      some v := hw
  clear hw
  split_ifs at hw' ⊢ <;>
    first
      | exact Option.noConfusion hw'
      | exact finishRescale_written _ _ _ _ _ _ _ hw'

/-- The normalizer result stays within one rate-limit step of the current
count whenever the policy minimum is at least one. -/
theorem convertDesiredReplicasWithRules_rate (wpa : WPASpec) (cur des m M : Int)
    (hm1 : 1 ≤ m) (hmcur : m ≤ cur) (hcurM : cur ≤ M) :
    calculateScaleDownLimit wpa cur ≤ convertDesiredReplicasWithRules wpa cur des m M ∧
      convertDesiredReplicasWithRules wpa cur des m M ≤ calculateScaleUpLimit wpa cur := by
  have hsdl := calculateScaleDownLimit_le wpa cur
  have hsup := le_calculateScaleUpLimit wpa cur
  simp only [convertDesiredReplicasWithRules]
  split_ifs <;> omega

/-- C3 counterexample: with `MinReplicas = 0` the normalizer's first branch
sets the lower bound to 1 and never applies the scale-down cap: a policy
with 1% limit factors and 100 observed replicas writes 50, far below the
claimed lower bound `100 − max(1, ⌊1·100/100⌋) = 99`. -/
theorem reconcile_rate_limit_counterexample :
    (reconcileWPA wpaC3 ⟨100, 100, none⟩ ⟨100, 100⟩ [specC3] 7 true).written = some 50 ∧
      ¬calculateScaleDownLimit wpaC3 100 ≤ 50 := by
  have hdelay : wpaC3.readinessDelaySeconds = 0 := rfl
  have htol : wpaC3.tolerance = 0 := rfl
  have halg : wpaC3.algorithm = "average" := rfl
  have hminp : wpaC3.minReplicas = some 0 := rfl
  have hmaxp : wpaC3.maxReplicas = 100 := rfl
  have hdry : wpaC3.dryRun = false := rfl
  have hg : groupPods [readyPod "p1"] [("p1", 1000)] "memory" 0 = (["p1"], []) := by
    simp [groupPods, readyPod, List.lookup]
  have hu : resourceAdjustedUsage wpaC3 [readyPod "p1"] [("p1", 1000)] "memory" = 1000 := by
    norm_num [resourceAdjustedUsage, resourceAveraged, resourceReadyCount,
      resourceMetricsAfterRemoval, removeMetricsForPods, hg, hdelay, halg]
  have hGR : GetResourceReplicas wpaC3 100 (Except.ok ([("p1", 1000)], 5)) [readyPod "p1"]
      "memory" 2000 4000 = Except.ok ⟨50, 1000, 5⟩ := by
    norm_num [GetResourceReplicas, resourceMetricsAfterRemoval, removeMetricsForPods, hg, hu,
      getReplicaCount, truncQ, hdelay, htol]
  have hcomp : computeReplicasForMetrics wpaC3 100 [specC3] = Except.ok (50, "memory", 5) := by
    simp [computeReplicasForMetrics, computeLoop, evalMetricSpec, specC3, hGR]
  have hnorm : normalizeDesiredReplicas wpaC3 100 50 = 50 := by
    norm_num [normalizeDesiredReplicas, convertDesiredReplicasWithRules,
      calculateScaleDownLimit, calculateScaleUpLimit, wpaC3, wpaBase]
  refine ⟨?_, ?_⟩
  · simp [reconcileWPA, hcomp, hnorm, shouldScale, finishRescale, hminp, hmaxp, hdry]
  · norm_num [calculateScaleDownLimit, wpaC3, wpaBase]

/-- C3 amended: for writes that go through the normalizer (observed count
within `[MinReplicas, MaxReplicas]`, nonzero scale spec) and a positive
`MinReplicas`, the written value lies in
`[N − max(1, ⌊fDown·N/100⌋), N + max(1, ⌊fUp·N/100⌋)]` with
`N = statusReplicas`. Writes from the min/max early-exit branches, and any
policy with `MinReplicas` zero or unset, are not rate-limited by the code. -/
theorem reconcile_written_within_rate_limits (wpa : WPASpec) (st0 : WPAStatus)
    (scale : ScaleObj) (specs : List MetricSpecModel) (now : ℚ) (ws : Bool) (v m : Int)
    (hmr : wpa.minReplicas = some m) (hm1 : 1 ≤ m)
    (hmcur : m ≤ scale.statusReplicas) (hcurM : scale.statusReplicas ≤ wpa.maxReplicas)
    (hspec : scale.specReplicas ≠ 0)
    (hw : (reconcileWPA wpa st0 scale specs now ws).written = some v) :
    calculateScaleDownLimit wpa scale.statusReplicas ≤ v ∧
      v ≤ calculateScaleUpLimit wpa scale.statusReplicas := by
  obtain ⟨p, nm, ts, hc, hv⟩ := reconcileWPA_metric_written wpa st0 scale specs now ws v
    hspec (by omega) (by simp [hmr]; omega) (by omega) hw
  subst hv
  have := convertDesiredReplicasWithRules_rate wpa scale.statusReplicas
    (if 0 < p then p else 0) m wpa.maxReplicas hm1 hmcur hcurM
  simpa [normalizeDesiredReplicas, hmr] using this

/-- C3 witness: with `MinReplicas = 1`, 100% factors and 5 observed
replicas, the written downscale result 2 lies inside
`[5 − max(1,⌊5⌋), 5 + max(1,⌊5⌋)] = [0, 10]`. -/
theorem reconcile_written_within_rate_limits_witness :
    calculateScaleDownLimit wpaBase 5 ≤ 2 ∧ (2 : Int) ≤ calculateScaleUpLimit wpaBase 5 := by
  have hdelay : wpaBase.readinessDelaySeconds = 0 := rfl
  have htol : wpaBase.tolerance = 0 := rfl
  have halg : wpaBase.algorithm = "absolute" := rfl
  have hminp : wpaBase.minReplicas = some 1 := rfl
  have hmaxp : wpaBase.maxReplicas = 10 := rfl
  have hdry : wpaBase.dryRun = false := rfl
  have hg : groupPods [readyPod "p1"] [("p1", 900)] "memory" 0 = (["p1"], []) := by
    simp [groupPods, readyPod, List.lookup]
  have hu : resourceAdjustedUsage wpaBase [readyPod "p1"] [("p1", 900)] "memory" = 900 := by
    norm_num [resourceAdjustedUsage, resourceAveraged, resourceReadyCount,
      resourceMetricsAfterRemoval, removeMetricsForPods, hg, hdelay, halg]
  have hGR : GetResourceReplicas wpaBase 5 (Except.ok ([("p1", 900)], 5)) [readyPod "p1"]
      "memory" 2000 4000 = Except.ok ⟨2, 900, 5⟩ := by
    norm_num [GetResourceReplicas, resourceMetricsAfterRemoval, removeMetricsForPods, hg, hu,
      getReplicaCount, truncQ, hdelay, htol]
  have hcomp : computeReplicasForMetrics wpaBase 5
      [MetricSpecModel.resource "memory" (some 2000) (some 4000)
        (Except.ok ([("p1", 900)], 5)) [readyPod "p1"]] = Except.ok (2, "memory", 5) := by
    simp [computeReplicasForMetrics, computeLoop, evalMetricSpec, hGR]
  have hnorm : normalizeDesiredReplicas wpaBase 5 2 = 2 := by
    norm_num [normalizeDesiredReplicas, convertDesiredReplicasWithRules,
      calculateScaleDownLimit, calculateScaleUpLimit, wpaBase]
  have hw : (reconcileWPA wpaBase ⟨5, 5, none⟩ ⟨5, 5⟩
      [MetricSpecModel.resource "memory" (some 2000) (some 4000)
        (Except.ok ([("p1", 900)], 5)) [readyPod "p1"]] 7 true).written = some 2 := by
    simp [reconcileWPA, hcomp, hnorm, shouldScale, finishRescale, hminp, hmaxp, hdry]
  exact reconcile_written_within_rate_limits wpaBase ⟨5, 5, none⟩ ⟨5, 5⟩
    [MetricSpecModel.resource "memory" (some 2000) (some 4000)
      (Except.ok ([("p1", 900)], 5)) [readyPod "p1"]] 7 true 2 1
    rfl (by decide) (by decide) (by decide) (by decide) hw

/-- Inside the (inclusive, tolerance-adjusted) dead band the evaluator
returns its base replica count unchanged. -/
theorem getReplicaCount_dead_band (N : Int) (t u : ℚ) (L H : Int)
    (hlo : (L : ℚ) * (1 - t) ≤ u) (hhi : u ≤ (H : ℚ) * (1 + t)) :
    (getReplicaCount N t u L H).1 = N := by
  have h1 : ¬u > (H : ℚ) + t * H := by
    have hH : (H : ℚ) + t * H = (H : ℚ) * (1 + t) := by ring
    rw [hH]
    exact not_lt.mpr hhi
  have h2 : ¬u < (L : ℚ) - t * L := by
    have hL : (L : ℚ) - t * L = (L : ℚ) * (1 - t) := by ring
    rw [hL]
    exact not_lt.mpr hlo
  simp only [getReplicaCount, if_neg h1, if_neg h2]

/-- Normalizing the current count is the identity when the current count
already respects the policy bounds. -/
theorem convertDesiredReplicasWithRules_id (wpa : WPASpec) (cur m M : Int)
    (h1 : 1 ≤ cur) (hm : m ≤ cur) (hM : cur ≤ M) :
    convertDesiredReplicasWithRules wpa cur cur m M = cur := by
  have hsdl := calculateScaleDownLimit_le wpa cur
  have hsup := le_calculateScaleUpLimit wpa cur
  simp only [convertDesiredReplicasWithRules]
  split_ifs <;> omega

/-- C4 amended: for a reconciliation evaluating a single resource metric
(whose base replica count is the scale's observed count), a usage inside the
tolerance-adjusted watermark band, observed replicas within the policy
bounds, a nonzero scale spec and a present `LastScaleTime`, no scale write
occurs and the resulting status has `DesiredReplicas = CurrentReplicas`.
(With `LastScaleTime` absent the gate lets even the no-change proposal
through, and on the external path the base is the ready-pod count, not the
observed count — see the counterexample.) -/
theorem reconcile_dead_band_no_write (wpa : WPASpec) (st0 : WPAStatus) (scale : ScaleObj)
    (resourceName : String) (metrics : List (String × Int)) (mts : ℚ)
    (podList : List Pod) (L H : Int) (now : ℚ) (ws : Bool) (t0 : ℚ)
    (hlast : st0.lastScaleTime = some t0)
    (hspec : ¬scale.specReplicas = 0)
    (hN1 : 1 ≤ scale.statusReplicas) (hNM : scale.statusReplicas ≤ wpa.maxReplicas)
    (hmin : ∀ m, wpa.minReplicas = some m → m ≤ scale.statusReplicas)
    (hpods : ¬podList = [])
    (hmets : ¬resourceMetricsAfterRemoval podList metrics resourceName
        wpa.readinessDelaySeconds = [])
    (hlo : (L : ℚ) * (1 - wpa.tolerance) ≤ resourceAdjustedUsage wpa podList metrics resourceName)
    (hhi : resourceAdjustedUsage wpa podList metrics resourceName ≤ (H : ℚ) * (1 + wpa.tolerance)) :
    (reconcileWPA wpa st0 scale
        [MetricSpecModel.resource resourceName (some L) (some H) (Except.ok (metrics, mts)) podList]
        now ws).written = none ∧
      (reconcileWPA wpa st0 scale
        [MetricSpecModel.resource resourceName (some L) (some H) (Except.ok (metrics, mts)) podList]
        now ws).status.desiredReplicas = scale.statusReplicas ∧
      (reconcileWPA wpa st0 scale
        [MetricSpecModel.resource resourceName (some L) (some H) (Except.ok (metrics, mts)) podList]
        now ws).status.currentReplicas = scale.statusReplicas := by
  have hrc : (getReplicaCount scale.statusReplicas wpa.tolerance
      (resourceAdjustedUsage wpa podList metrics resourceName) L H).1 = scale.statusReplicas :=
    getReplicaCount_dead_band _ _ _ _ _ hlo hhi
  have hGR : GetResourceReplicas wpa scale.statusReplicas (Except.ok (metrics, mts)) podList
      resourceName L H = Except.ok
        ⟨scale.statusReplicas,
          (getReplicaCount scale.statusReplicas wpa.tolerance
            (resourceAdjustedUsage wpa podList metrics resourceName) L H).2, mts⟩ := by
    have h1 : ¬(podList.isEmpty = true) := by
      simp only [List.isEmpty_iff]
      exact hpods
    have h2 : ¬((resourceMetricsAfterRemoval podList metrics resourceName
        wpa.readinessDelaySeconds).isEmpty = true) := by
      simp only [List.isEmpty_iff]
      exact hmets
    simp only [GetResourceReplicas, if_neg h1, if_neg h2, hrc]
  have hcomp : computeReplicasForMetrics wpa scale.statusReplicas
      [MetricSpecModel.resource resourceName (some L) (some H) (Except.ok (metrics, mts)) podList]
      = Except.ok (scale.statusReplicas, resourceName, mts) := by
    simp [computeReplicasForMetrics, computeLoop, evalMetricSpec, hGR]
  have hnorm : normalizeDesiredReplicas wpa scale.statusReplicas scale.statusReplicas =
      scale.statusReplicas := by
    unfold normalizeDesiredReplicas
    refine convertDesiredReplicasWithRules_id wpa _ _ _ hN1 ?_ hNM
    cases hmr : wpa.minReplicas with
    | none =>
      simp only [Option.getD_none]
      omega
    | some m => simpa using hmin m hmr
  have hss : shouldScale wpa st0.lastScaleTime scale.statusReplicas scale.statusReplicas mts =
      false := by
    rw [hlast]
    simp [shouldScale, canScale]
  have hm3 : ¬(wpa.minReplicas.map (fun m => decide (scale.statusReplicas < m))).getD false =
      true := by
    cases hmr : wpa.minReplicas with
    | none => simp
    | some m =>
      have := hmin m hmr
      simp only [Option.map_some', Option.getD_some, decide_eq_true_eq]
      omega
  have hpos : (0 : Int) < scale.statusReplicas := by omega
  have hres : reconcileWPA wpa st0 scale
      [MetricSpecModel.resource resourceName (some L) (some H) (Except.ok (metrics, mts)) podList]
      now ws = ⟨none, setStatus st0 scale.statusReplicas scale.statusReplicas false now⟩ := by
    unfold reconcileWPA
    rw [if_neg hspec, if_neg (show ¬wpa.maxReplicas < scale.statusReplicas by omega), if_neg hm3,
      if_neg (show ¬scale.statusReplicas = 0 by omega)]
    simp [hcomp, hpos, hnorm, hss]
  rw [hres]
  exact ⟨rfl, rfl, rfl⟩

/-- C4 witness: five observed replicas, a single resource metric with usage
1500 inside the band `[1000, 2000]`, a recorded last scale time: no write
happens and the status keeps `DesiredReplicas = CurrentReplicas = 5`. -/
theorem reconcile_dead_band_no_write_witness :
    (reconcileWPA wpaBase ⟨5, 5, some 0⟩ ⟨5, 5⟩
        [MetricSpecModel.resource "memory" (some 1000) (some 2000)
          (Except.ok ([("p1", 1500)], 3)) [readyPod "p1"]] 7 true).written = none ∧
      (reconcileWPA wpaBase ⟨5, 5, some 0⟩ ⟨5, 5⟩
        [MetricSpecModel.resource "memory" (some 1000) (some 2000)
          (Except.ok ([("p1", 1500)], 3)) [readyPod "p1"]] 7 true).status.desiredReplicas = 5 ∧
      (reconcileWPA wpaBase ⟨5, 5, some 0⟩ ⟨5, 5⟩
        [MetricSpecModel.resource "memory" (some 1000) (some 2000)
          (Except.ok ([("p1", 1500)], 3)) [readyPod "p1"]] 7 true).status.currentReplicas = 5 := by
  have hdel : wpaBase.readinessDelaySeconds = 0 := rfl
  have htol : wpaBase.tolerance = 0 := rfl
  have halg : wpaBase.algorithm = "absolute" := rfl
  have hg : groupPods [readyPod "p1"] [("p1", 1500)] "memory" 0 = (["p1"], []) := by
    simp [groupPods, readyPod, List.lookup]
  have hmets : ¬resourceMetricsAfterRemoval [readyPod "p1"] [("p1", 1500)] "memory"
      wpaBase.readinessDelaySeconds = [] := by
    simp [resourceMetricsAfterRemoval, removeMetricsForPods, hdel, hg]
  have hu : resourceAdjustedUsage wpaBase [readyPod "p1"] [("p1", 1500)] "memory" = 1500 := by
    norm_num [resourceAdjustedUsage, resourceAveraged, resourceReadyCount,
      resourceMetricsAfterRemoval, removeMetricsForPods, hg, hdel, halg]
  exact reconcile_dead_band_no_write wpaBase ⟨5, 5, some 0⟩ ⟨5, 5⟩ "memory" [("p1", 1500)] 3
    [readyPod "p1"] 1000 2000 7 true 0 rfl (by decide) (by decide) (by decide)
    (by intro m hm; simp [wpaBase] at hm; subst hm; decide) (by decide) hmets
    (by rw [hu]; norm_num [htol]) (by rw [hu]; norm_num [htol])

/-- C4 counterexample: on the external path the evaluator's base is the
ready-pod count (4), not the observed replica count (5). With the averaged
usage 1500 inside the band `[1000, 2000]` and no min/max violation the
controller still writes 4 and records `DesiredReplicas = 4 ≠ 5 =
CurrentReplicas`, contradicting the claim. -/
theorem reconcile_dead_band_counterexample :
    (1000 : ℚ) * (1 - wpaC4.tolerance) ≤ externalAdjustedUsage wpaC4 4 [6000] ∧
      externalAdjustedUsage wpaC4 4 [6000] ≤ (2000 : ℚ) * (1 + wpaC4.tolerance) ∧
      (reconcileWPA wpaC4 ⟨5, 5, some 0⟩ ⟨5, 5⟩ [specC4] 7 true).written = some 4 ∧
      (reconcileWPA wpaC4 ⟨5, 5, some 0⟩ ⟨5, 5⟩ [specC4] 7 true).status.desiredReplicas = 4 ∧
      (reconcileWPA wpaC4 ⟨5, 5, some 0⟩ ⟨5, 5⟩ [specC4] 7 true).status.currentReplicas = 5 := by
  have htol : wpaC4.tolerance = 0 := rfl
  have halg : wpaC4.algorithm = "average" := rfl
  have hdel : wpaC4.readinessDelaySeconds = 0 := rfl
  have hminp : wpaC4.minReplicas = some 1 := rfl
  have hmaxp : wpaC4.maxReplicas = 10 := rfl
  have hdry : wpaC4.dryRun = false := rfl
  have hup : wpaC4.upscaleForbiddenWindowSeconds = 0 := rfl
  have hdown : wpaC4.downscaleForbiddenWindowSeconds = 0 := rfl
  have hu : externalAdjustedUsage wpaC4 4 [6000] = 1500 := by
    norm_num [externalAdjustedUsage, externalAveraged, halg]
  have hready : getReadyPodsCount [readyPod "p1", readyPod "p2", readyPod "p3", readyPod "p4"] 0 =
      Except.ok 4 := by
    simp [getReadyPodsCount, podToleratedAsReady, getPodCondition, readyPod, List.countP,
      List.countP.go]
  have hGE : GetExternalMetricReplicas wpaC4
      [readyPod "p1", readyPod "p2", readyPod "p3", readyPod "p4"]
      (Except.ok ([6000], 100)) 1000 2000 = Except.ok ⟨4, 1500, 100⟩ := by
    norm_num [GetExternalMetricReplicas, hdel, hready, hu, getReplicaCount, truncQ, htol]
  have hcomp : computeReplicasForMetrics wpaC4 5 [specC4] = Except.ok (4, "m", 100) := by
    simp [computeReplicasForMetrics, computeLoop, evalMetricSpec, specC4, hGE]
  have hnorm : normalizeDesiredReplicas wpaC4 5 4 = 4 := by
    norm_num [normalizeDesiredReplicas, convertDesiredReplicasWithRules, calculateScaleDownLimit,
      calculateScaleUpLimit, wpaC4, wpaBase]
  have hss : shouldScale wpaC4 (some 0) 5 4 100 = true := by
    norm_num [shouldScale, canScale, hup, hdown]
  refine ⟨by rw [hu]; norm_num [htol], by rw [hu]; norm_num [htol], ?_, ?_, ?_⟩ <;>
    simp [reconcileWPA, hminp, hmaxp, hdry, hcomp, hnorm, hss, finishRescale, setStatus]

/-- Outside dry-run mode, `finishRescale` leaves `LastScaleTime` untouched
whenever it did not write (that is, when the scale update failed). -/
theorem finishRescale_frame (wpa : WPASpec) (st0 : WPAStatus) (cur des : Int) (now : ℚ)
    (ws : Bool) (hdry : wpa.dryRun = false)
    (hw : (finishRescale wpa st0 cur des now ws).written = none) :
    (finishRescale wpa st0 cur des now ws).status.lastScaleTime = st0.lastScaleTime := by
  cases ws
  · simp [finishRescale, hdry, setStatus]
  · simp [finishRescale, hdry] at hw

/-- C6 counterexample: in dry-run mode a reconciliation that performs no
scale write still stamps `LastScaleTime` (the dry-run branch calls
`setStatus` with `rescale = true`): starting from `LastScaleTime = none`
the status ends with `some 7` although `written = none`. -/
theorem lastScaleTime_dry_run_counterexample :
    (reconcileWPA wpaC6 ⟨20, 20, none⟩ ⟨20, 20⟩ [] 7 true).written = none ∧
      (reconcileWPA wpaC6 ⟨20, 20, none⟩ ⟨20, 20⟩ [] 7 true).status.lastScaleTime = some 7 := by
  have hmax : wpaC6.maxReplicas = 10 := rfl
  have hdry : wpaC6.dryRun = true := rfl
  constructor <;> simp [reconcileWPA, finishRescale, setStatus, hmax, hdry]

/-- C6 amended: outside dry-run mode, any reconciliation that performs no
successful scale write (no-change decisions, metric errors, failed updates)
leaves the stored `LastScaleTime` unchanged; in dry-run mode the timestamp
is also stamped when the gate would have allowed a write. -/
theorem lastScaleTime_unchanged_without_write (wpa : WPASpec) (st0 : WPAStatus)
    (scale : ScaleObj) (specs : List MetricSpecModel) (now : ℚ) (ws : Bool)
    (hdry : wpa.dryRun = false)
    (hw : (reconcileWPA wpa st0 scale specs now ws).written = none) :
    (reconcileWPA wpa st0 scale specs now ws).status.lastScaleTime = st0.lastScaleTime := by
  unfold reconcileWPA at hw ⊢
  by_cases h1 : scale.specReplicas = 0
  · rw [if_pos h1]
    simp [setStatus]
  rw [if_neg h1] at hw ⊢
  by_cases h2 : wpa.maxReplicas < scale.statusReplicas
  · rw [if_pos h2] at hw ⊢
    exact finishRescale_frame _ _ _ _ _ _ hdry hw
  rw [if_neg h2] at hw ⊢
  by_cases h3 : (wpa.minReplicas.map (fun m => decide (scale.statusReplicas < m))).getD false = true
  · rw [if_pos h3] at hw ⊢
    exact finishRescale_frame _ _ _ _ _ _ hdry hw
  rw [if_neg h3] at hw ⊢
  by_cases h4 : scale.statusReplicas = 0
  · rw [if_pos h4] at hw ⊢
    exact finishRescale_frame _ _ _ _ _ _ hdry hw
  rw [if_neg h4] at hw ⊢
  rcases hc : computeReplicasForMetrics wpa scale.statusReplicas specs with e | ⟨p, nm, ts⟩
  · simp [setStatus]
  rw [hc] at hw
  have hw' : (if shouldScale wpa st0.lastScaleTime scale.statusReplicas
        (normalizeDesiredReplicas wpa scale.statusReplicas (if 0 < p then p else 0))
        (if 0 < p then ts else now) = true then
      finishRescale wpa st0 scale.statusReplicas
        (normalizeDesiredReplicas wpa scale.statusReplicas (if 0 < p then p else 0)) now ws
    else ⟨none, setStatus st0 scale.statusReplicas scale.statusReplicas false now⟩).written =
      none := hw
  show (if shouldScale wpa st0.lastScaleTime scale.statusReplicas
        (normalizeDesiredReplicas wpa scale.statusReplicas (if 0 < p then p else 0))
        (if 0 < p then ts else now) = true then
      finishRescale wpa st0 scale.statusReplicas
        (normalizeDesiredReplicas wpa scale.statusReplicas (if 0 < p then p else 0)) now ws
    else ⟨none, setStatus st0 scale.statusReplicas scale.statusReplicas false
      now⟩).status.lastScaleTime = st0.lastScaleTime
  clear hw
  split_ifs at hw' ⊢ <;>
    first
      | exact finishRescale_frame _ _ _ _ _ _ hdry hw'
      | simp [setStatus]

/-- C6 witness: a zero scale spec (autoscaling disabled) performs no write
and keeps the recorded `LastScaleTime` of 3 seconds. -/
theorem lastScaleTime_unchanged_without_write_witness :
    (reconcileWPA wpaBase ⟨5, 5, some 3⟩ ⟨0, 5⟩ [] 7 true).status.lastScaleTime = some 3 :=
  lastScaleTime_unchanged_without_write wpaBase ⟨5, 5, some 3⟩ ⟨0, 5⟩ [] 7 true rfl rfl

/-- Invariant of the aggregation loop: when every spec evaluates
successfully to a positive proposal, the loop returns a value at least the
accumulator and every per-spec proposal, and the result is either the
accumulator itself or the evaluation of one of the specs. -/
theorem computeLoop_spec (wpa : WPASpec) (N : Int) (specs : List MetricSpecModel) :
    ∀ acc : Int × String × ℚ,
      (∀ s ∈ specs, ∃ p nm ts, evalMetricSpec wpa N s = Except.ok (p, nm, ts) ∧ 0 < p) →
      ∃ r, computeLoop wpa N acc specs = Except.ok r ∧ acc.1 ≤ r.1 ∧
        (∀ s ∈ specs, ∀ q qn qt, evalMetricSpec wpa N s = Except.ok (q, qn, qt) → q ≤ r.1) ∧
        (r = acc ∨ ∃ s ∈ specs, evalMetricSpec wpa N s = Except.ok r) := by
  induction specs with
  | nil =>
    intro acc _
    exact ⟨acc, rfl, le_refl _, by simp, Or.inl rfl⟩
  | cons s rest ih =>
    intro acc hpos
    obtain ⟨p, nm, ts, hs, hp⟩ := hpos s (List.mem_cons_self _ _)
    have hrest : ∀ x ∈ rest, ∃ p nm ts, evalMetricSpec wpa N x = Except.ok (p, nm, ts) ∧ 0 < p :=
      fun x hx => hpos x (List.mem_cons_of_mem _ hx)
    by_cases hcond : acc.1 = 0 ∨ p > acc.1
    · obtain ⟨r, hr, hle, hmax, hat⟩ := ih (p, nm, ts) hrest
      have hstep : computeLoop wpa N acc (s :: rest) = computeLoop wpa N (p, nm, ts) rest := by
        simp only [computeLoop, hs]
        rw [if_pos (by simpa [Bool.or_eq_true, decide_eq_true_eq] using hcond)]
      refine ⟨r, hstep.trans hr, ?_, ?_, ?_⟩
      · rcases hcond with h0 | hgt
        · have := hle
          omega
        · omega
      · intro x hx q qn qt hq
        rcases List.mem_cons.mp hx with rfl | hx'
        · have hqp : q = p := by
            have := hs.symm.trans hq
            simp at this
            exact this.1.symm
          omega
        · exact hmax x hx' q qn qt hq
      · rcases hat with rfl | ⟨x, hxmem, hxeq⟩
        · exact Or.inr ⟨s, List.mem_cons_self _ _, hs⟩
        · exact Or.inr ⟨x, List.mem_cons_of_mem _ hxmem, hxeq⟩
    · obtain ⟨r, hr, hle, hmax, hat⟩ := ih acc hrest
      have hnotc : ¬acc.1 = 0 ∧ p ≤ acc.1 := by
        push_neg at hcond
        exact hcond
      have hstep : computeLoop wpa N acc (s :: rest) = computeLoop wpa N acc rest := by
        simp only [computeLoop, hs]
        rw [if_neg (by simp [Bool.or_eq_true, decide_eq_true_eq]; omega)]
      refine ⟨r, hstep.trans hr, hle, ?_, ?_⟩
      · intro x hx q qn qt hq
        rcases List.mem_cons.mp hx with rfl | hx'
        · have hqp : q = p := by
            have := hs.symm.trans hq
            simp at this
            exact this.1.symm
          omega
        · exact hmax x hx' q qn qt hq
      · rcases hat with rfl | ⟨x, hxmem, hxeq⟩
        · exact Or.inl rfl
        · exact Or.inr ⟨x, List.mem_cons_of_mem _ hxmem, hxeq⟩

/-- C7 amended: when every metric spec evaluates successfully AND every
per-spec proposal is positive (the case whenever watermarks are positive),
the aggregated result is the maximum per-spec proposal, and the reported
name and timestamp come from a spec attaining it. With a zero proposal
followed by a smaller one the `replicas == 0` clause of the loop re-fires
and returns the later, smaller proposal — see the counterexample. -/
theorem computeReplicas_max_over_metrics (wpa : WPASpec) (N : Int)
    (specs : List MetricSpecModel)
    (hpos : ∀ s ∈ specs, ∃ p nm ts, evalMetricSpec wpa N s = Except.ok (p, nm, ts) ∧ 0 < p)
    (hne : specs ≠ []) :
    ∃ p nm ts, computeReplicasForMetrics wpa N specs = Except.ok (p, nm, ts) ∧
      (∀ s ∈ specs, ∀ q qn qt, evalMetricSpec wpa N s = Except.ok (q, qn, qt) → q ≤ p) ∧
      ∃ s ∈ specs, evalMetricSpec wpa N s = Except.ok (p, nm, ts) := by
  obtain ⟨r, hr, _, hmax, hat⟩ := computeLoop_spec wpa N specs (0, "", 0) hpos
  rcases hat with rfl | ⟨s, hsmem, hseq⟩
  · rcases hsp : specs with _ | ⟨s0, rest⟩
    · exact absurd hsp hne
    · obtain ⟨p, nm, ts, hs, hp⟩ := hpos s0 (hsp ▸ List.mem_cons_self _ _)
      have hle0 : p ≤ (((0 : Int), ("" : String), (0 : ℚ))).1 :=
        hmax s0 (hsp ▸ List.mem_cons_self _ _) p nm ts hs
      simp at hle0
      omega
  · exact ⟨r.1, r.2.1, r.2.2, hr, hmax, ⟨s, hsmem, hseq⟩⟩

/-- C7 counterexample: two specs that both evaluate successfully, with
proposals 0 and −1 (reachable with negative watermarks, which nothing in
the modelled core rejects). The maximum is 0, attained by spec "a", but the
loop's `replicas == 0` clause re-fires on the second spec and the aggregate
reports `(−1, "b")` instead. -/
theorem computeReplicas_max_counterexample :
    evalMetricSpec wpaBase 5 specC7a = Except.ok (0, "a", 11) ∧
      evalMetricSpec wpaBase 5 specC7b = Except.ok (-1, "b", 12) ∧
      computeReplicasForMetrics wpaBase 5 [specC7a, specC7b] = Except.ok (-1, "b", 12) := by
  have htol : wpaBase.tolerance = 0 := rfl
  have halg : wpaBase.algorithm = "absolute" := rfl
  have hdel : wpaBase.readinessDelaySeconds = 0 := rfl
  have hready : getReadyPodsCount [readyPod "p1"] 0 = Except.ok 1 := by
    simp [getReadyPodsCount, podToleratedAsReady, getPodCondition, readyPod, List.countP,
      List.countP.go]
  have hua : externalAdjustedUsage wpaBase 1 [] = 0 := by
    norm_num [externalAdjustedUsage, externalAveraged, halg]
  have hub : externalAdjustedUsage wpaBase 1 [3000] = 3000 := by
    norm_num [externalAdjustedUsage, externalAveraged, halg]
  have hrca1 : (getReplicaCount 1 wpaBase.tolerance 0 (-3000) (-2000)).1 = 0 := by
    simp only [getReplicaCount]
    rw [if_pos (by norm_num [htol])]
    norm_num
  have hrca2 : (getReplicaCount 1 wpaBase.tolerance 0 (-3000) (-2000)).2 = 0 := by
    simp only [getReplicaCount]
    split_ifs <;> norm_num [truncQ]
  have hrcb1 : (getReplicaCount 1 wpaBase.tolerance 3000 (-3000) (-2000)).1 = -1 := by
    have hc : (⌈((1 : Int) : ℚ) * 3000 / ((-2000 : Int) : ℚ)⌉ : Int) = -1 := by
      rw [show ((1 : Int) : ℚ) * 3000 / ((-2000 : Int) : ℚ) = -3 / 2 by norm_num,
        Int.ceil_eq_iff]
      constructor <;> norm_num
    simp only [getReplicaCount]
    rw [if_pos (by norm_num [htol])]
    exact hc
  have hrcb2 : (getReplicaCount 1 wpaBase.tolerance 3000 (-3000) (-2000)).2 = 3000 := by
    simp only [getReplicaCount]
    split_ifs <;> norm_num [truncQ]
  have hGEa : GetExternalMetricReplicas wpaBase [readyPod "p1"] (Except.ok ([], 11))
      (-3000) (-2000) = Except.ok ⟨0, 0, 11⟩ := by
    simp [GetExternalMetricReplicas, hdel, hready, hua, hrca1, hrca2]
  have hGEb : GetExternalMetricReplicas wpaBase [readyPod "p1"] (Except.ok ([3000], 12))
      (-3000) (-2000) = Except.ok ⟨-1, 3000, 12⟩ := by
    simp [GetExternalMetricReplicas, hdel, hready, hub, hrcb1, hrcb2]
  refine ⟨?_, ?_, ?_⟩
  · simp [evalMetricSpec, specC7a, hGEa]
  · simp [evalMetricSpec, specC7b, hGEb]
  · simp [computeReplicasForMetrics, computeLoop, evalMetricSpec, specC7a, specC7b, hGEa, hGEb]

/-- C7 witness: a single spec proposing 2 replicas; the aggregate is the
maximum 2, attained by that spec with its name and timestamp. -/
theorem computeReplicas_max_over_metrics_witness :
    ∃ p nm ts, computeReplicasForMetrics wpaBase 5 [specC7w] = Except.ok (p, nm, ts) ∧
      (∀ s ∈ [specC7w], ∀ q qn qt, evalMetricSpec wpaBase 5 s = Except.ok (q, qn, qt) → q ≤ p) ∧
      ∃ s ∈ [specC7w], evalMetricSpec wpaBase 5 s = Except.ok (p, nm, ts) := by
  have htol : wpaBase.tolerance = 0 := rfl
  have halg : wpaBase.algorithm = "absolute" := rfl
  have hdel : wpaBase.readinessDelaySeconds = 0 := rfl
  have hready : getReadyPodsCount [readyPod "p1"] 0 = Except.ok 1 := by
    simp [getReadyPodsCount, podToleratedAsReady, getPodCondition, readyPod, List.countP,
      List.countP.go]
  have hub : externalAdjustedUsage wpaBase 1 [3000] = 3000 := by
    norm_num [externalAdjustedUsage, externalAveraged, halg]
  have hrcw1 : (getReplicaCount 1 wpaBase.tolerance 3000 1000 2000).1 = 2 := by
    have hc : (⌈((1 : Int) : ℚ) * 3000 / ((2000 : Int) : ℚ)⌉ : Int) = 2 := by
      rw [show ((1 : Int) : ℚ) * 3000 / ((2000 : Int) : ℚ) = 3 / 2 by norm_num,
        Int.ceil_eq_iff]
      constructor <;> norm_num
    simp only [getReplicaCount]
    rw [if_pos (by norm_num [htol])]
    exact hc
  have hrcw2 : (getReplicaCount 1 wpaBase.tolerance 3000 1000 2000).2 = 3000 := by
    simp only [getReplicaCount]
    split_ifs <;> norm_num [truncQ]
  have hGEw : GetExternalMetricReplicas wpaBase [readyPod "p1"] (Except.ok ([3000], 9))
      1000 2000 = Except.ok ⟨2, 3000, 9⟩ := by
    simp [GetExternalMetricReplicas, hdel, hready, hub, hrcw1, hrcw2]
  have heval : evalMetricSpec wpaBase 5 specC7w = Except.ok (2, "w", 9) := by
    simp [evalMetricSpec, specC7w, hGEw]
  exact computeReplicas_max_over_metrics wpaBase 5 [specC7w]
    (by
      intro s hs
      simp only [List.mem_singleton] at hs
      subst hs
      exact ⟨2, "w", 9, heval, by norm_num⟩)
    (by simp)

/-- A pair that is a member of an association list is found by `lookup` of
its key. -/
theorem lookup_isSome_of_mem : ∀ {l : List (String × Int)} {kv : String × Int}, kv ∈ l →
    (l.lookup kv.1).isSome = true := by
  intro l
  induction l with
  | nil =>
    intro kv h
    cases h
  | cons x xs ih =>
    obtain ⟨k, v⟩ := x
    intro kv h
    rcases List.mem_cons.mp h with rfl | h'
    · simp [List.lookup]
    · simp only [List.lookup]
      split
      · simp
      · exact ih h'

/-- Every listed pod that has a metric entry lands in the ready set or the
ignored set of `groupPods` (pods without entries fall into `missing`). -/
theorem groupPods_classifies (metrics : List (String × Int)) (resourceName : String) (delay : ℚ) :
    ∀ (podList : List Pod) (pod : Pod), pod ∈ podList →
      (metrics.lookup pod.name).isSome = true →
      pod.name ∈ (groupPods podList metrics resourceName delay).1 ∨
        pod.name ∈ (groupPods podList metrics resourceName delay).2 := by
  intro podList
  induction podList with
  | nil =>
    intro pod h
    cases h
  | cons q rest ih =>
    intro pod h hm
    rcases List.mem_cons.mp h with rfl | h'
    · simp only [groupPods]
      split_ifs with h1 h2 h3 h4
      · exact Or.inr (List.mem_cons_self _ _)
      · exact Or.inr (List.mem_cons_self _ _)
      · rw [Option.isNone_iff_eq_none] at h3
        rw [h3] at hm
        cases hm
      · exact Or.inr (List.mem_cons_self _ _)
      · exact Or.inl (List.mem_cons_self _ _)
    · have hih := ih pod h' hm
      simp only [groupPods]
      split_ifs <;> rcases hih with hr | hi <;> simp_all [List.mem_cons]

/-- C8 amended: on the external path an empty tolerated-ready set always
makes the operation fail. On the resource path the operation fails when the
ready set is empty, provided every metric entry belongs to a listed pod;
stale entries for pods absent from the pod list keep the metric map
nonempty and the operation then proceeds without error (see the
counterexample). -/
theorem empty_ready_set_errors (wpa : WPASpec) :
    (∀ (podList : List Pod) (fetch : Except String (List Int × ℚ)) (L H : Int),
      podList.countP (podToleratedAsReady wpa.readinessDelaySeconds) = 0 →
      exceptOk (GetExternalMetricReplicas wpa podList fetch L H) = false) ∧
    (∀ (statusReplicas : Int) (metrics : List (String × Int)) (mts : ℚ)
        (podList : List Pod) (resourceName : String) (L H : Int),
      (groupPods podList metrics resourceName wpa.readinessDelaySeconds).1 = [] →
      (∀ kv ∈ metrics, ∃ pod ∈ podList, pod.name = kv.1) →
      exceptOk (GetResourceReplicas wpa statusReplicas (Except.ok (metrics, mts)) podList
        resourceName L H) = false) := by
  constructor
  · intro podList fetch L H hcount
    have herr : ∃ e, getReadyPodsCount podList wpa.readinessDelaySeconds = Except.error e := by
      simp only [getReadyPodsCount, hcount]
      norm_num
      split_ifs
      · exact ⟨_, rfl⟩
      · exact ⟨_, rfl⟩
    obtain ⟨e, he⟩ := herr
    simp [GetExternalMetricReplicas, he, exceptOk]
  · intro N metrics mts podList resourceName L H hready hcover
    have hempty : resourceMetricsAfterRemoval podList metrics resourceName
        wpa.readinessDelaySeconds = [] := by
      unfold resourceMetricsAfterRemoval removeMetricsForPods
      rw [List.filter_eq_nil_iff]
      intro kv hkv
      obtain ⟨pod, hpodmem, hname⟩ := hcover kv hkv
      have hsome : (metrics.lookup pod.name).isSome = true := by
        rw [hname]
        exact lookup_isSome_of_mem hkv
      have hcls := groupPods_classifies metrics resourceName wpa.readinessDelaySeconds
        podList pod hpodmem hsome
      rw [hready] at hcls
      rcases hcls with hmem | hmem
      · cases hmem
      · rw [hname] at hmem
        simp [hmem]
    by_cases hpe : podList = []
    · simp [GetResourceReplicas, hpe, exceptOk]
    · simp [GetResourceReplicas, hempty, exceptOk, List.isEmpty_iff, hpe]

/-- C8 counterexample: the pod list holds one pending pod (ignored), so the
ready set is empty, but a stale metric entry for an unlisted pod keeps the
metric map nonempty: the resource operation returns a replica proposal
instead of an error. -/
theorem resource_empty_ready_no_error_counterexample :
    (groupPods [pendingPod "q"] [("ghost", 4000)] "memory" wpaBase.readinessDelaySeconds).1 =
        [] ∧
      GetResourceReplicas wpaBase 5 (Except.ok ([("ghost", 4000)], 8)) [pendingPod "q"]
        "memory" 1000 2000 = Except.ok ⟨10, 4000, 8⟩ := by
  have hdel : wpaBase.readinessDelaySeconds = 0 := rfl
  have htol : wpaBase.tolerance = 0 := rfl
  have halg : wpaBase.algorithm = "absolute" := rfl
  have hg : groupPods [pendingPod "q"] [("ghost", 4000)] "memory" 0 = ([], ["q"]) := by
    simp [groupPods, pendingPod, List.lookup]
  have hu : resourceAdjustedUsage wpaBase [pendingPod "q"] [("ghost", 4000)] "memory" = 4000 := by
    simp only [resourceAdjustedUsage, resourceAveraged, resourceReadyCount,
      resourceMetricsAfterRemoval, removeMetricsForPods, hg, hdel, halg,
      if_neg (show ¬("absolute" : String) = "average" by decide)]
    simp
  have hrc1 : (getReplicaCount 5 wpaBase.tolerance 4000 1000 2000).1 = 10 := by
    have hc : (⌈((5 : Int) : ℚ) * 4000 / ((2000 : Int) : ℚ)⌉ : Int) = 10 := by
      rw [show ((5 : Int) : ℚ) * 4000 / ((2000 : Int) : ℚ) = 10 by norm_num, Int.ceil_eq_iff]
      constructor <;> norm_num
    simp only [getReplicaCount]
    rw [if_pos (by norm_num [htol])]
    exact hc
  have hrc2 : (getReplicaCount 5 wpaBase.tolerance 4000 1000 2000).2 = 4000 := by
    simp only [getReplicaCount]
    split_ifs <;> norm_num [truncQ]
  refine ⟨by rw [hdel, hg], ?_⟩
  simp [GetResourceReplicas, resourceMetricsAfterRemoval, removeMetricsForPods, hg, hu,
    hrc1, hrc2, hdel]

/-- C8 witness: one pending pod, no ready pod, and a metric entry belonging
to that listed pod: both branches of the amended claim are exercised — the
external operation fails on the empty ready set, and the resource operation
fails because all surviving entries are removed. -/
theorem empty_ready_set_errors_witness :
    exceptOk (GetExternalMetricReplicas wpaBase [pendingPod "q"] (Except.ok ([1000], 4))
        1000 2000) = false ∧
      exceptOk (GetResourceReplicas wpaBase 5 (Except.ok ([("q", 1000)], 4)) [pendingPod "q"]
        "memory" 1000 2000) = false := by
  constructor
  · refine (empty_ready_set_errors wpaBase).1 [pendingPod "q"] (Except.ok ([1000], 4)) 1000 2000 ?_
    simp [List.countP, List.countP.go, podToleratedAsReady, getPodCondition, pendingPod,
      show wpaBase.readinessDelaySeconds = 0 from rfl]
  · refine (empty_ready_set_errors wpaBase).2 5 [("q", 1000)] 4 [pendingPod "q"] "memory"
      1000 2000 ?_ ?_
    · simp [groupPods, pendingPod, show wpaBase.readinessDelaySeconds = 0 from rfl]
    · intro kv hkv
      simp only [List.mem_singleton] at hkv
      subst hkv
      exact ⟨pendingPod "q", List.mem_singleton_self _, rfl⟩

/-- C10: with `Algorithm = "average"`, a pod list whose only pod is pending
(hence ignored) and a stale metric entry for an unlisted pod leave zero
ready pods but a nonempty metric map: the averaging divisor is exactly 0,
the division is performed unguarded (in this rational model `x / 0 = 0`;
the Go float64 division yields an infinity), and the operation returns a
result instead of an error. -/
theorem resource_zero_ready_unguarded_division :
    (groupPods [pendingPod "q"] [("boo", 5000)] "memory" wpaC4.readinessDelaySeconds).1 = [] ∧
      resourceMetricsAfterRemoval [pendingPod "q"] [("boo", 5000)] "memory"
        wpaC4.readinessDelaySeconds = [("boo", 5000)] ∧
      resourceAveraged wpaC4 [pendingPod "q"] [("boo", 5000)] "memory" = 0 ∧
      exceptOk (GetResourceReplicas wpaC4 5 (Except.ok ([("boo", 5000)], 8)) [pendingPod "q"]
        "memory" 1000 2000) = true := by
  have hdel : wpaC4.readinessDelaySeconds = 0 := rfl
  have halg : wpaC4.algorithm = "average" := rfl
  have hg : groupPods [pendingPod "q"] [("boo", 5000)] "memory" 0 = ([], ["q"]) := by
    simp [groupPods, pendingPod, List.lookup]
  have hmets : resourceMetricsAfterRemoval [pendingPod "q"] [("boo", 5000)] "memory" 0 =
      [("boo", 5000)] := by
    simp [resourceMetricsAfterRemoval, removeMetricsForPods, hg]
  have havg : resourceAveraged wpaC4 [pendingPod "q"] [("boo", 5000)] "memory" = 0 := by
    simp [resourceAveraged, resourceReadyCount, hdel, hg, halg]
  refine ⟨by rw [hdel, hg], by rw [hdel]; exact hmets, havg, ?_⟩
  simp [GetResourceReplicas, hdel, hmets, exceptOk]

/-- The loop of `getScaleForResourceMappings` always appends the literal
`"scale not found"` message when it found no scale. -/
theorem scaleMappingsLoop_none : ∀ (ms : List MappingAttempt) (acc : List String)
    (errs : List String), scaleMappingsLoop acc ms = (none, errs) →
    ∃ pre, errs = pre ++ ["scale not found"] := by
  intro ms
  induction ms with
  | nil =>
    intro acc errs h
    simp only [scaleMappingsLoop] at h
    cases h
    exact ⟨acc, rfl⟩
  | cons m rest ih =>
    intro acc errs h
    rcases hr : m.result with e | s
    · have h' : scaleMappingsLoop
          (acc ++ ["could not get scale for the GV " ++ m.groupVersion ++ ", error: " ++ e])
          rest = (none, errs) := by
        rw [← h]
        simp only [scaleMappingsLoop, hr]
      exact ih _ _ h'
    · have h' : ((some s, acc) : Option ScaleObj × List String) = (none, errs) := by
        rw [← h]
        simp only [scaleMappingsLoop, hr]
      cases h'

/-- The aggregated message of a list ending in a given entry ends in that
entry. -/
theorem aggregate_ends_with : ∀ (pre : List String) (last : String),
    ∃ s, aggregateErrorMessage (pre ++ [last]) = s ++ last := by
  intro pre
  induction pre with
  | nil =>
    intro last
    refine ⟨"", ?_⟩
    simp only [List.nil_append, aggregateErrorMessage]
    rfl
  | cons x xs ih =>
    intro last
    obtain ⟨s, hs⟩ := ih last
    cases xs with
    | nil =>
      refine ⟨x ++ ", ", ?_⟩
      show aggregateErrorMessage [x, last] = x ++ ", " ++ last
      simp [aggregateErrorMessage]
    | cons y ys =>
      refine ⟨x ++ ", " ++ s, ?_⟩
      calc aggregateErrorMessage ((x :: y :: ys) ++ [last])
          = x ++ ", " ++ aggregateErrorMessage ((y :: ys) ++ [last]) := by
            simp [aggregateErrorMessage, List.cons_append]
        _ = x ++ ", " ++ (s ++ last) := by rw [hs]
        _ = x ++ ", " ++ s ++ last := by simp [String.append_assoc]

/-- C9 amended: the nil-scale guard can never be passed. Whenever every
REST mapping fails, `getScaleForResourceMappings` appends the
`"scale not found"` error, so the aggregated message always contains
`"not found"` and `reconcileWPA` returns the error instead of reaching the
nil dereference. -/
theorem scale_gate_never_nil_dereference (mappings : List MappingAttempt) :
    isNilDereference (reconcileScaleGate mappings) = false := by
  rcases hg : getScaleForResourceMappings mappings with ⟨so, errs⟩
  cases so with
  | some s =>
    have hout : reconcileScaleGate mappings = ScaleFetchOutcome.proceed s := by
      unfold reconcileScaleGate
      rw [hg]
    rw [hout]
    rfl
  | none =>
    have hg' : scaleMappingsLoop [] mappings = (none, errs) := hg
    obtain ⟨pre, hpre⟩ := scaleMappingsLoop_none mappings [] errs hg'
    have hinf : "not found".toList.IsInfix (aggregateErrorMessage errs).toList := by
      obtain ⟨s, hs⟩ := aggregate_ends_with pre "scale not found"
      rw [hpre, hs]
      have h1 : "not found".toList <:+ "scale not found".toList := by decide
      have h2 : "scale not found".toList <:+ (s ++ "scale not found").toList := by
        have hd : (s ++ "scale not found").toList = s.toList ++ "scale not found".toList :=
          String.data_append s "scale not found"
        rw [hd]
        exact List.suffix_append _ _
      exact (h1.trans h2).isInfix
    have hout : reconcileScaleGate mappings =
        ScaleFetchOutcome.earlyReturn (aggregateErrorMessage errs) := by
      unfold reconcileScaleGate
      rw [hg]
      exact if_pos hinf
    rw [hout]
    rfl

/-- C9 counterexample: at the claim's own scenario — every mapping fails
and no per-mapping message mentions "not found" — the appended
`"scale not found"` entry still makes the aggregate contain `"not found"`,
so `reconcileWPA` takes the early return, never the nil dereference. -/
theorem scale_gate_counterexample :
    reconcileScaleGate [⟨"apps/v1", Except.error "boom"⟩] =
      ScaleFetchOutcome.earlyReturn
        "could not get scale for the GV apps/v1, error: boom, scale not found" := by decide

end WPA
